import Mathlib

/-!
Shallow embedding of the Unicorn HAT HD driver (`unicornhathd.py`):
the pixel-buffer model, per-panel windowing and rotation, brightness
scaling and wire framing, together with theorems checking the
specification's claims against this embedding.

Conventions of the embedding:
* the numpy integer buffer (`dtype=int`) is a `Grid`: explicit dimensions
  plus a total pixel function into integer RGB triples;
* Python floats (brightness, rotation angles) are modelled as exact
  rationals; `astype(numpy.uint8)` is truncation toward zero followed by
  reduction modulo 256, the platform-typical C cast behaviour;
* raising an exception is modelled either with `Except` or, for mutators
  where the claims speak about the state after a raise, by returning the
  untouched state paired with `some` error (the source raises before any
  mutation in every such function);
* Python / numpy indexing (negative indices wrap once) and slice clamping
  are modelled explicitly by `normIdx` and `sliceClamp`.
-/

namespace UnicornHatHD

/-- A pixel: one integer per colour channel, as in the `dtype=int` numpy buffer. -/
abbrev Pixel := Int × Int × Int

/-- Errors the modelled Python code can raise. -/
inductive PyErr where
  | indexError
  | valueError
deriving DecidableEq

instance {ε α : Type} [DecidableEq ε] [DecidableEq α] : DecidableEq (Except ε α) := by
  intro x y
  cases x <;> cases y
  case error.error a b =>
    exact if h : a = b then .isTrue (by rw [h]) else .isFalse (fun he => h (by cases he; rfl))
  case ok.ok a b =>
    exact if h : a = b then .isTrue (by rw [h]) else .isFalse (fun he => h (by cases he; rfl))
  case error.ok a b => exact .isFalse (fun he => by cases he)
  case ok.error a b => exact .isFalse (fun he => by cases he)

/-- The pixel buffer: a rectangular grid (axis 0 = x of length `w`,
axis 1 = y of length `h`) of integer RGB triples, as `_buf`. -/
structure Grid where
  w : Nat
  h : Nat
  pix : Nat → Nat → Pixel

/-- Start-of-frame header constant `_SOF = 0x72`. -/
def SOF : Int := 0x72

/-- Fixed panel width constant `WIDTH = 16`. -/
def WIDTH : Int := 16

/-- Fixed panel height constant `HEIGHT = 16`. -/
def HEIGHT : Int := 16

/-- Fixed panel shape constant `PANEL_SHAPE = (16, 16)`. -/
def PANEL_SHAPE : Nat × Nat := (16, 16)

/-- Truncation toward zero, the C cast behaviour for float-to-integer. -/
def truncQ (q : ℚ) : Int := if 0 ≤ q then ⌊q⌋ else ⌈q⌉

/-- Byte conversion `astype(numpy.uint8)` on a scaled channel: truncate
toward zero, then reduce modulo 256 (two's-complement wraparound, not
saturation). -/
def toUint8 (q : ℚ) : Int := truncQ q % 256

/-- Saturating byte conversion, as the specification's words describe it:
truncate toward zero and clamp into `[0, 255]`.  (Spec-side definition,
to be compared with `toUint8`, which is what the code does.) -/
def clampByte (q : ℚ) : Int := max 0 (min 255 (truncQ q))

/-- Python's `round`: round half to even (banker's rounding). -/
def pyRound (q : ℚ) : Int :=
  if q - ⌊q⌋ < 1/2 then ⌊q⌋
  else if 1/2 < q - ⌊q⌋ then ⌊q⌋ + 1
  else if ⌊q⌋ % 2 = 0 then ⌊q⌋ else ⌊q⌋ + 1

/-- Python / numpy single-index normalisation for an axis of length `n`:
indices in `[0, n)` are used as-is, indices in `[-n, 0)` wrap once, and
anything else raises `IndexError` (`none`). -/
def normIdx (n : Nat) (i : Int) : Option Nat :=
  if 0 ≤ i ∧ i < n then some i.toNat
  else if -(n : Int) ≤ i ∧ i < 0 then some (i + n).toNat
  else none

/-- Python slice-endpoint clamping for an axis of length `n`: a negative
endpoint is shifted by `n` once, then the result is clamped into `[0, n]`. -/
def sliceClamp (n : Nat) (i : Int) : Nat :=
  (min (n : Int) (max 0 (if i < 0 then i + n else i))).toNat

/-- Slicing `source[x:x+dx, y:y+dy]` on the first two axes of a numpy
array: slice clamping on both axes, yielding a possibly degenerate grid. -/
def pySlice2 (g : Grid) (x y : Int) (dx dy : Nat) : Grid :=
  let sx := sliceClamp g.w x
  let ex := sliceClamp g.w (x + dx)
  let sy := sliceClamp g.h y
  let ey := sliceClamp g.h (y + dy)
  ⟨ex - sx, ey - sy, fun i j => g.pix (sx + i) (sy + j)⟩

/-- One counter-clockwise quarter turn, `numpy.rot90(m, 1)`:
`rot90(m)[i][j] = m[j][h-1-i]`, exchanging the two axis lengths. -/
def rot90 (g : Grid) : Grid :=
  ⟨g.h, g.w, fun i j => g.pix j (g.h - 1 - i)⟩

/-- Iterated rotation `numpy.rot90(m, k)` for an arbitrary integer `k`:
the quarter turn applied `k mod 4` times. -/
def rot90n (k : Int) (g : Grid) : Grid := rot90^[(k % 4).toNat] g

/-- The three bytes of one pixel in wire order R, G, B. -/
def pixBytes (p : Pixel) : List Int := [p.1, p.2.1, p.2.2]

/-- Channel `c` of a pixel (0 = R, 1 = G, otherwise B). -/
def pixChannel (c : Nat) (p : Pixel) : Int :=
  match c with
  | 0 => p.1
  | 1 => p.2.1
  | _ => p.2.2

/-- Row `i` of the buffer flattened to bytes, row-major within the row. -/
def rowBytes (g : Grid) (i : Nat) : List Int :=
  (List.range g.h).flatMap (fun j => pixBytes (g.pix i j))

/-- Row-major flattening `reshape(w*h*3)` of the grid, channel order R,G,B. -/
def flattenGrid (g : Grid) : List Int :=
  (List.range g.w).flatMap (rowBytes g)

/-- One slot of the display chain (`class Display`): enabled flag, window
offset into the buffer, and the panel's own rotation step. -/
structure Display where
  enabled : Bool
  x : Int
  y : Int
  rotation : Int
deriving DecidableEq

/-- The disabled default display `Display(False, 0, 0, 0)`. -/
def dDefault : Display := ⟨false, 0, 0, 0⟩

/-- Windowing `Display.get_buffer_window`: slice the 16×16 region of the
(already globally rotated) source at `(x, y)`, then rotate it by the
panel's own rotation step plus one extra quarter turn. -/
def get_buffer_window (d : Display) (source : Grid) : Grid :=
  rot90n ( Display.rotation d + 1) (pySlice2 source d.x d.y PANEL_SHAPE.1 PANEL_SHAPE.2)

/-- The panel window as the specification words it: rotate the whole
buffer by the global step, slice the pure 16×16 sub-grid whose top-left
corner is `(x, y)`, then rotate by the panel's rotation step plus one
quarter turn.  (Spec-side definition, compared with what `show` computes.) -/
def specWindow (buf : Grid) (grot : Int) (d : Display) : Grid :=
  let r := rot90n grot buf
  rot90n ( Display.rotation d + 1) ⟨16, 16, fun i j => r.pix (d.x.toNat + i) (d.y.toNat + j)⟩

/-- The `COLORS` name table. -/
def COLORS : List (String × Pixel) :=
  [("red", (255, 0, 0)), ("lime", (0, 255, 0)), ("blue", (0, 0, 255)),
   ("yellow", (255, 255, 0)), ("magenta", (255, 0, 255)), ("cyan", (0, 255, 255)),
   ("black", (0, 0, 0)), ("white", (255, 255, 255)), ("gray", (127, 127, 127)),
   ("grey", (127, 127, 127)), ("silver", (192, 192, 192)), ("maroon", (128, 0, 0)),
   ("olive", (128, 128, 0)), ("green", (0, 128, 0)), ("teal", (0, 128, 128)),
   ("navy", (0, 0, 128)), ("orange", (255, 165, 0)), ("gold", (255, 215, 0)),
   ("purple", (128, 0, 128)), ("indigo", (75, 0, 130))]

/-- The colour argument accepted by `set_all` / `set_pixel`: either discrete
RGB components (or a tuple, which unpacks to the same) or a colour name. -/
inductive ColorArg where
  | rgb (r g b : Int)
  | name (s : String)

/-- ASCII lowercasing of one character, as Python's `str.lower` acts on the
ASCII colour names in `COLORS`. -/
def lowerChar (c : Char) : Char :=
  if 65 ≤ c.toNat ∧ c.toNat ≤ 90 then Char.ofNat (c.toNat + 32) else c

/-- Python's `str.lower`, restricted to its ASCII action. -/
def pyLower (s : String) : String := ⟨s.data.map lowerChar⟩

/-- Resolve a colour argument as the source does: a name is lowercased and
looked up in `COLORS`; a missing key raises `ValueError`. -/
def resolveColor : ColorArg → Except PyErr Pixel
  | .rgb r g b => .ok (r, g, b)
  | .name s =>
    match COLORS.lookup (pyLower s) with
    | some p => .ok p
    | none => .error .valueError

/-- Write pixel `(i, j)` of the grid. -/
def writePix (g : Grid) (i j : Nat) (p : Pixel) : Grid :=
  ⟨g.w, g.h, fun a b => if a = i ∧ b = j then p else g.pix a b⟩

/-- Pixel write `set_pixel(x, y, ...)`: resolve the colour (raising on a
bad name before any write), then `_buf[int(x)][int(y)] = r, g, b` with
numpy indexing.  Returns the buffer after the call together with the
raised error, if any; on a raise the buffer is the unmodified input. -/
def set_pixel (buf : Grid) (x y : Int) (c : ColorArg) : Grid × Option PyErr :=
  match resolveColor c with
  | .error e => (buf, some e)
  | .ok p =>
    match normIdx buf.w x, normIdx buf.h y with
    | some i, some j => (writePix buf i j p, none)
    | _, _ => (buf, some .indexError)

/-- Guarded write `safe_set_pixel`: the guard compares against the fixed
constants `WIDTH` and `HEIGHT` (not the current buffer dimensions), then
calls `set_pixel`. -/
def safe_set_pixel (buf : Grid) (x y : Int) (c : ColorArg) : Grid × Option PyErr :=
  if 0 ≤ x ∧ 0 ≤ y ∧ x < WIDTH ∧ y < HEIGHT then set_pixel buf x y c
  else (buf, none)

/-- Pixel read `get_pixel(x, y)`: `tuple(_buf[int(x)][int(y)])` with numpy
indexing. -/
def get_pixel (buf : Grid) (x y : Int) : Except PyErr Pixel :=
  match normIdx buf.w x, normIdx buf.h y with
  | some i, some j => .ok (buf.pix i j)
  | _, _ => .error .indexError

/-- Whole-buffer fill `set_all(...)`: resolve the colour (raising on a bad
name before any write), then `_buf[:] = r, g, b`. -/
def set_all (buf : Grid) (c : ColorArg) : Grid × Option PyErr :=
  match resolveColor c with
  | .error e => (buf, some e)
  | .ok p => (⟨buf.w, buf.h, fun _ _ => p⟩, none)

/-- Buffer read `get_pixels()`: return the whole buffer. -/
def get_pixels (buf : Grid) : Grid := buf

/-- Buffer replace `set_pixels(buf)`: the source body is `_buf = buf` with
no `global _buf` declaration, so the assignment binds a function-local
name and the module buffer is left unchanged. -/
def set_pixels (buf : Grid) (_newBuf : Grid) : Grid := buf

/-- Chain call `enable_display(address, enabled)`:
`_displays[address].enabled = enabled` with Python list indexing.
Returns the chain after the call together with the raised error, if any;
on a raise the chain is the unmodified input. -/
def enable_display (ds : List Display) (address : Int) (enabled : Bool) :
    List Display × Option PyErr :=
  match normIdx ds.length address with
  | some k => (ds.set k { ds.getD k dDefault with enabled := enabled }, none)
  | none => (ds, some .indexError)

/-- Chain call `setup_display(address, x, y, rotation)`:
`_displays[address].update(...)` then `enable_display(address)`, both with
Python list indexing. -/
def setup_display (ds : List Display) (address : Int) (x y rotation : Int) :
    List Display × Option PyErr :=
  match normIdx ds.length address with
  | some k =>
    let d := ds.getD k dDefault
    enable_display (ds.set k { d with x := x, y := y, rotation := rotation }) address true
  | none => (ds, some .indexError)

/-- Rotation setter `set_rotation(r)`: `_rotation = int(round(r / 90.0))`,
returning the new value of the `_rotation` global. -/
def set_rotation (r : ℚ) : Int := pyRound (r / 90)

/-- Rotation getter `get_rotation()`: `_rotation * 90`. -/
def get_rotation (rot : Int) : Int := rot * 90

/-- The brightness-scaled payload of one window: every flattened channel
value is multiplied by the brightness and cast to `uint8`. -/
def scaledBytes (g : Grid) (brightness : ℚ) : List Int :=
  (flattenGrid g).map (fun (v : Int) => toUint8 ((v : ℚ) * brightness))

/-- The non-addressed frame of `show`:
`[_SOF] + (numpy.rot90(_buf, _rotation).reshape(768) * _brightness).astype(uint8)`.
Reshaping raises `ValueError` unless the element count is exactly 768. -/
def single_frame (buf : Grid) (rot : Int) (brightness : ℚ) : Except PyErr (List Int) :=
  let r := rot90n rot buf
  if r.w * r.h * 3 = 768 then .ok (SOF :: scaledBytes r brightness)
  else .error .valueError

/-- One addressed frame of `show` for the enabled display at `address`:
header `_SOF + 1 + address`, then the brightness-scaled window bytes.
Reshaping raises `ValueError` unless the window has 768 channel values. -/
def panel_frame (buf : Grid) (rot : Int) (brightness : ℚ) (address : Nat)
    (d : Display) : Except PyErr (List Int) :=
  let w := get_buffer_window d (rot90n rot buf)
  if w.w * w.h * 3 = 768 then .ok ((SOF + 1 + (address : Int)) :: scaledBytes w brightness)
  else .error .valueError

/-- The addressed loop of `show` over a list of addresses: each enabled
display contributes one frame, disabled ones are skipped, and a raise
aborts the call. -/
def addressed_frames (buf : Grid) (rot : Int) (brightness : ℚ) (ds : List Display) :
    List Nat → Except PyErr (List (List Int))
  | [] => .ok []
  | a :: rest =>
    if (ds.getD a dDefault).enabled then
      match panel_frame buf rot brightness a (ds.getD a dDefault) with
      | .ok f => (addressed_frames buf rot brightness ds rest).map (f :: ·)
      | .error e => .error e
    else addressed_frames buf rot brightness ds rest

/-- Render output `show()`: in addressed mode, one frame per enabled
display for addresses `0..7` in ascending order; otherwise the single
non-addressed frame. -/
def show_frames (buf : Grid) (rot : Int) (brightness : ℚ) (addressing : Bool)
    (ds : List Display) : Except PyErr (List (List Int)) :=
  if addressing then addressed_frames buf rot brightness ds (List.range 8)
  else (single_frame buf rot brightness).map (fun f => [f])

/-- The all-zero buffer of the given dimensions (`numpy.zeros`). -/
def zeroGrid (w h : Nat) : Grid := ⟨w, h, fun _ _ => (0, 0, 0)⟩

/-- The 32×32 zero buffer used as a concrete resized buffer. -/
def grid32 : Grid := zeroGrid 32 32

/-- A 16×16 buffer whose pixel (0,0) stores the out-of-range channel 300. -/
def grid300 : Grid := ⟨16, 16, fun i j => if i = 0 ∧ j = 0 then (300, 0, 0) else (0, 0, 0)⟩

/-- The all-ones 16×16 buffer. -/
def gridOnes : Grid := ⟨16, 16, fun _ _ => (1, 1, 1)⟩

/-- A two-panel chain used as a concrete witness: panels enabled at
addresses 2 and 5 only. -/
def dsTwo : List Display :=
  [dDefault, dDefault, ⟨true, 0, 0, 0⟩, dDefault, dDefault, ⟨true, 0, 0, 1⟩,
   dDefault, dDefault]

theorem Grid.ext' {g1 g2 : Grid} (hw : g1.w = g2.w) (hh : g1.h = g2.h)
    (hp : g1.pix = g2.pix) : g1 = g2 := by
  cases g1; cases g2; cases hw; cases hh; cases hp; rfl

theorem flatMap_range_length {α : Type} (f : Nat → List α) (L : Nat)
    (hf : ∀ k, (f k).length = L) (n : Nat) :
    ((List.range n).flatMap f).length = L * n := by
  induction n with
  | zero => simp
  | succ m ih =>
    rw [List.range_succ, List.flatMap_append, List.length_append, ih]
    simp [hf, Nat.mul_succ]

theorem flatMap_range_getElem {α : Type} (L : Nat) :
    ∀ (i : Nat) (f : Nat → List α), (∀ k, (f k).length = L) →
      ∀ (n r : Nat), i < n → r < L →
      ((List.range n).flatMap f)[L * i + r]? = (f i)[r]? := by
  intro i
  induction i with
  | zero =>
    intro f hf n r hn hr
    cases n with
    | zero => omega
    | succ m =>
      rw [List.range_succ_eq_map, List.flatMap_cons, List.flatMap_map]
      rw [List.getElem?_append]
      simp only [Nat.mul_zero, Nat.zero_add]
      rw [if_pos (by rw [hf 0]; omega)]
  | succ i ih =>
    intro f hf n r hn hr
    cases n with
    | zero => omega
    | succ m =>
      rw [List.range_succ_eq_map, List.flatMap_cons, List.flatMap_map]
      rw [List.getElem?_append_right (by rw [hf 0, Nat.mul_succ] at *; omega)]
      have harith : L * (i + 1) + r - (f 0).length = L * i + r := by
        rw [hf 0, Nat.mul_succ]; omega
      rw [harith]
      exact ih (fun a => f (a + 1)) (fun a => hf (a + 1)) m r (by omega) hr

theorem rowBytes_length (g : Grid) (i : Nat) : (rowBytes g i).length = 3 * g.h := by
  rw [rowBytes]; exact flatMap_range_length (fun j => pixBytes (g.pix i j)) 3 (fun _ => rfl) g.h

theorem pixBytes_getElem (p : Pixel) (c : Nat) (hc : c < 3) :
    (pixBytes p)[c]? = some (pixChannel c p) := by
  interval_cases c <;> rfl

theorem flattenGrid_getElem (g : Grid) (i j c : Nat)
    (hi : i < g.w) (hj : j < g.h) (hc : c < 3) :
    (flattenGrid g)[3 * g.h * i + (3 * j + c)]? = some (pixChannel c (g.pix i j)) := by
  rw [flattenGrid, flatMap_range_getElem (3 * g.h) i (rowBytes g) (rowBytes_length g) g.w
    (3 * j + c) hi (by omega)]
  rw [rowBytes, flatMap_range_getElem 3 j (fun j => pixBytes (g.pix i j)) (fun _ => rfl) g.h
    c hj hc]
  exact pixBytes_getElem _ c hc

theorem rot90_iterate_square (m : Nat) (g : Grid) (hw : g.w = 16) (hh : g.h = 16) :
    (rot90^[m] g).w = 16 ∧ (rot90^[m] g).h = 16 := by
  induction m with
  | zero => exact ⟨hw, hh⟩
  | succ k ih => rw [Function.iterate_succ_apply']; exact ⟨ih.2, ih.1⟩

theorem rot90n_square (k : Int) (g : Grid) (hw : g.w = 16) (hh : g.h = 16) :
    (rot90n k g).w = 16 ∧ (rot90n k g).h = 16 :=
  rot90_iterate_square _ g hw hh

theorem pyRound_close (q : ℚ) : |q - pyRound q| ≤ 1/2 := by
  have h0 : (0 : ℚ) ≤ q - ⌊q⌋ := by have := Int.floor_le q; linarith
  have h1 : q - ⌊q⌋ < 1 := by have := Int.lt_floor_add_one q; linarith
  unfold pyRound
  split
  · rw [abs_le]; constructor <;> linarith
  · split
    · rw [abs_le]; push_cast; constructor <;> linarith
    · split <;> (rw [abs_le]; push_cast; constructor <;> linarith)

theorem normIdx_none_iff (n : Nat) (i : Int) :
    normIdx n i = none ↔ ¬(-(n : Int) ≤ i ∧ i < n) := by
  unfold normIdx
  split_ifs with h1 h2 <;> simp <;> omega

theorem normIdx_pos (n : Nat) (i : Int) (h0 : 0 ≤ i) (hn : i < n) :
    normIdx n i = some i.toNat := by
  unfold normIdx
  rw [if_pos ⟨h0, hn⟩]

theorem normIdx_eq_none {n : Nat} {i : Int} (h : (n : Int) ≤ i ∨ i < -(n : Int)) :
    normIdx n i = none := by
  unfold normIdx
  rw [if_neg (by omega), if_neg (by omega)]

theorem sliceClamp_of_le (n : Nat) (x : Int) (h0 : 0 ≤ x) (hn : x ≤ n) :
    sliceClamp n x = x.toNat := by
  unfold sliceClamp
  rw [if_neg (by omega), max_eq_right h0, min_eq_right hn]

/-- C9: within bounds, setting a pixel and reading it back returns exactly
the written RGB triple. -/
theorem c9_set_get_roundtrip (buf : Grid) (x y r g b : Int)
    (hx0 : 0 ≤ x) (hxw : x < (buf.w : Int)) (hy0 : 0 ≤ y) (hyh : y < (buf.h : Int))
    (_hr : 0 ≤ r ∧ r ≤ 255) (_hg : 0 ≤ g ∧ g ≤ 255) (_hb : 0 ≤ b ∧ b ≤ 255) :
    (set_pixel buf x y (.rgb r g b)).2 = none ∧
    get_pixel (set_pixel buf x y (.rgb r g b)).1 x y = .ok (r, g, b) := by
  have hx := normIdx_pos buf.w x hx0 hxw
  have hy := normIdx_pos buf.h y hy0 hyh
  simp only [set_pixel, resolveColor, hx, hy]
  refine ⟨trivial, ?_⟩
  simp only [get_pixel, writePix, hx, hy]
  simp

theorem c9_witness :
    (set_pixel (zeroGrid 16 16) 3 4 (.rgb 10 20 30)).2 = none ∧
    get_pixel (set_pixel (zeroGrid 16 16) 3 4 (.rgb 10 20 30)).1 3 4 = .ok (10, 20, 30) :=
  c9_set_get_roundtrip (zeroGrid 16 16) 3 4 10 20 30 (by decide) (by decide) (by decide)
    (by decide) (by decide) (by decide) (by decide)

/-- C10: an unrecognised colour name makes `set_all` and `set_pixel` raise
`ValueError` and leave the buffer byte-for-byte unchanged. -/
theorem c10_invalid_color_atomic (buf : Grid) (s : String) (x y : Int)
    (h : COLORS.lookup (pyLower s) = none) :
    set_all buf (.name s) = (buf, some .valueError) ∧
    set_pixel buf x y (.name s) = (buf, some .valueError) := by
  have hres : resolveColor (.name s) = .error .valueError := by
    simp [resolveColor, h]
  constructor <;> simp [set_all, set_pixel, hres]

theorem c10_witness :
    set_all (zeroGrid 16 16) (.name "Chartreuse") = (zeroGrid 16 16, some .valueError) ∧
    set_pixel (zeroGrid 16 16) 0 0 (.name "Chartreuse") = (zeroGrid 16 16, some .valueError) :=
  c10_invalid_color_atomic (zeroGrid 16 16) "Chartreuse" 0 0 (by decide)

/-- C4 counterexample: on a 32×32 buffer, the coordinate (20, 0) is inside
the current bounds, yet `safe_set_pixel` silently does nothing while
`set_pixel` writes the pixel. -/
theorem c4_counterexample :
    0 ≤ (20 : Int) ∧ (20 : Int) < (grid32.w : Int) ∧
    0 ≤ (0 : Int) ∧ (0 : Int) < (grid32.h : Int) ∧
    (safe_set_pixel grid32 20 0 (.rgb 9 9 9)).2 = none ∧
    (safe_set_pixel grid32 20 0 (.rgb 9 9 9)).1.pix 20 0 = (0, 0, 0) ∧
    (set_pixel grid32 20 0 (.rgb 9 9 9)).2 = none ∧
    (set_pixel grid32 20 0 (.rgb 9 9 9)).1.pix 20 0 = (9, 9, 9) ∧
    ((0, 0, 0) : Pixel) ≠ (9, 9, 9) := by decide

/-- C4 (amended): `safe_set_pixel` guards against the fixed constants
`WIDTH = HEIGHT = 16`, not the current buffer dimensions: outside
`[0,16)×[0,16)` it no-ops with no error, inside it behaves as `set_pixel`. -/
theorem c4_guard_is_constant (buf : Grid) (x y : Int) (c : ColorArg) :
    (¬(0 ≤ x ∧ 0 ≤ y ∧ x < WIDTH ∧ y < HEIGHT) →
      safe_set_pixel buf x y c = (buf, none)) ∧
    ((0 ≤ x ∧ 0 ≤ y ∧ x < WIDTH ∧ y < HEIGHT) →
      safe_set_pixel buf x y c = set_pixel buf x y c) := by
  constructor <;> intro h
  · rw [safe_set_pixel, if_neg h]
  · rw [safe_set_pixel, if_pos h]

theorem c4_witness :
    safe_set_pixel grid32 20 0 (.rgb 9 9 9) = (grid32, none) :=
  (c4_guard_is_constant grid32 20 0 (.rgb 9 9 9)).1 (by decide)

/-- C8: `set_pixels` assigns its argument to a function-local name (there
is no `global _buf`), so the module buffer is unchanged and `get_pixels`
still returns the old contents, not the supplied grid. -/
theorem c8_set_pixels_noop :
    get_pixels (set_pixels (zeroGrid 16 16) gridOnes) = zeroGrid 16 16 ∧
    (get_pixels (set_pixels (zeroGrid 16 16) gridOnes)).pix 0 0 = (0, 0, 0) ∧
    gridOnes.pix 0 0 = (1, 1, 1) ∧ ((0, 0, 0) : Pixel) ≠ (1, 1, 1) :=
  ⟨rfl, rfl, rfl, by decide⟩

/-- C6 counterexample: address −1 is outside [0,7] but raises nothing:
Python list indexing wraps it to slot 7, which gets reconfigured and
enabled. -/
theorem c6_counterexample :
    (setup_display (List.replicate 8 dDefault) (-1) 1 2 3).2 = none ∧
    (setup_display (List.replicate 8 dDefault) (-1) 1 2 3).1.getD 7 dDefault
      = ⟨true, 1, 2, 3⟩ ∧
    (setup_display (List.replicate 8 dDefault) (-1) 1 2 3).1
      ≠ List.replicate 8 dDefault ∧
    ¬(0 ≤ (-1 : Int)) := by decide

/-- C6 (amended): for addresses ≥ 8 or < −8 both chain calls raise
`IndexError` and return the chain unmodified; addresses in [−8,−1] instead
wrap (Python indexing) onto slots 0..7. -/
theorem c6_out_of_range_address (ds : List Display) (address : Int) (x y rot : Int)
    (e : Bool) (hlen : ds.length = 8) (h : 8 ≤ address ∨ address < -8) :
    enable_display ds address e = (ds, some .indexError) ∧
    setup_display ds address x y rot = (ds, some .indexError) := by
  have hn : normIdx ds.length address = none := by
    rw [hlen]; exact normIdx_eq_none (by omega)
  constructor <;> simp [enable_display, setup_display, hn]

theorem c6_witness :
    enable_display (List.replicate 8 dDefault) 9 true
      = (List.replicate 8 dDefault, some .indexError) ∧
    setup_display (List.replicate 8 dDefault) 9 1 2 3
      = (List.replicate 8 dDefault, some .indexError) :=
  c6_out_of_range_address (List.replicate 8 dDefault) 9 1 2 3 true (by decide) (by decide)

/-- C7 counterexample: (−1, 0) is outside [0,16)×[0,16), yet `set_pixel`
raises nothing (numpy wraps the index to row 15) and `get_pixel` succeeds. -/
theorem c7_counterexample :
    (set_pixel (zeroGrid 16 16) (-1) 0 (.rgb 5 6 7)).2 = none ∧
    (set_pixel (zeroGrid 16 16) (-1) 0 (.rgb 5 6 7)).1.pix 15 0 = (5, 6, 7) ∧
    get_pixel (zeroGrid 16 16) (-1) 0 = .ok (0, 0, 0) ∧
    ¬(0 ≤ (-1 : Int)) := by decide

/-- C7 (amended): the unchecked accessors raise `IndexError` exactly when a
coordinate falls outside `[-w, w) × [-h, h)`; indices in `[-w, -1]` wrap
once, numpy-style. -/
theorem c7_index_error_iff (buf : Grid) (x y r g b : Int) :
    ((set_pixel buf x y (.rgb r g b)).2 = some .indexError ↔
      ¬((-(buf.w : Int) ≤ x ∧ x < (buf.w : Int)) ∧
        (-(buf.h : Int) ≤ y ∧ y < (buf.h : Int)))) ∧
    (get_pixel buf x y = .error .indexError ↔
      ¬((-(buf.w : Int) ≤ x ∧ x < (buf.w : Int)) ∧
        (-(buf.h : Int) ≤ y ∧ y < (buf.h : Int)))) := by
  have hx := normIdx_none_iff buf.w x
  have hy := normIdx_none_iff buf.h y
  cases hxe : normIdx buf.w x <;> cases hye : normIdx buf.h y <;>
    rw [hxe] at hx <;> rw [hye] at hy <;>
    simp only [set_pixel, get_pixel, resolveColor, hxe, hye] <;>
    simp_all

theorem addressed_frames_filter_map (buf : Grid) (rot : Int) (brightness : ℚ)
    (ds : List Display) :
    ∀ l : List Nat,
      (∀ a ∈ l, (ds.getD a dDefault).enabled = true →
        (get_buffer_window (ds.getD a dDefault) (rot90n rot buf)).w *
        (get_buffer_window (ds.getD a dDefault) (rot90n rot buf)).h * 3 = 768) →
      addressed_frames buf rot brightness ds l =
        .ok ((l.filter (fun a => (ds.getD a dDefault).enabled)).map
          (fun (a : Nat) => (SOF + 1 + (a : Int)) ::
            scaledBytes (get_buffer_window (ds.getD a dDefault) (rot90n rot buf)) brightness)) := by
  intro l
  induction l with
  | nil => intro _; rfl
  | cons a rest ih =>
    intro h
    by_cases he : (ds.getD a dDefault).enabled = true
    · have hfr : panel_frame buf rot brightness a (ds.getD a dDefault) =
          .ok ((SOF + 1 + (a : Int)) ::
            scaledBytes (get_buffer_window (ds.getD a dDefault) (rot90n rot buf)) brightness) := by
        rw [panel_frame, if_pos (h a (List.mem_cons_self a rest) he)]
      rw [addressed_frames, if_pos he, hfr,
        ih (fun b hb hbe => h b (List.mem_cons_of_mem a hb) hbe)]
      rw [List.filter_cons, if_pos (by simpa [List.getD] using he)]
      rfl
    · rw [addressed_frames, if_neg he,
        ih (fun b hb hbe => h b (List.mem_cons_of_mem a hb) hbe)]
      rw [List.filter_cons, if_neg (by simpa [List.getD] using he)]

/-- C2: in addressed mode, one render call emits exactly one frame per
enabled panel, visiting addresses 0..7 in ascending order and skipping the
disabled ones, and the frame for address `a` is headed by `0x72 + 1 + a`. -/
theorem c2_one_frame_per_enabled_panel (buf : Grid) (rot : Int) (brightness : ℚ)
    (ds : List Display)
    (h : ∀ a, a < 8 → (ds.getD a dDefault).enabled = true →
      (get_buffer_window (ds.getD a dDefault) (rot90n rot buf)).w *
      (get_buffer_window (ds.getD a dDefault) (rot90n rot buf)).h * 3 = 768) :
    show_frames buf rot brightness true ds =
      .ok (((List.range 8).filter (fun a => (ds.getD a dDefault).enabled)).map
        (fun (a : Nat) => ((0x72 : Int) + 1 + (a : Int)) ::
          scaledBytes (get_buffer_window (ds.getD a dDefault) (rot90n rot buf)) brightness)) := by
  rw [show_frames, if_pos rfl]
  exact addressed_frames_filter_map buf rot brightness ds (List.range 8)
    (fun a ha => h a (List.mem_range.mp ha))

theorem c2_witness :
    show_frames (zeroGrid 16 16) 0 (1/2) true dsTwo =
      .ok (((List.range 8).filter (fun a => (dsTwo.getD a dDefault).enabled)).map
        (fun (a : Nat) => ((0x72 : Int) + 1 + (a : Int)) ::
          scaledBytes (get_buffer_window (dsTwo.getD a dDefault)
            (rot90n 0 (zeroGrid 16 16))) (1/2))) :=
  c2_one_frame_per_enabled_panel (zeroGrid 16 16) 0 (1/2) dsTwo (by decide)

/-- C3: for an in-bounds panel mapping, the window used in addressed mode
is the globally rotated buffer, sliced to the 16×16 sub-grid at `(x, y)`,
then rotated by the panel's own rotation step plus one quarter turn. -/
theorem c3_window_is_rotate_slice_rotate (buf : Grid) (grot : Int) (d : Display)
    (hx0 : 0 ≤ d.x) (hy0 : 0 ≤ d.y)
    (hxw : d.x + 16 ≤ ((rot90n grot buf).w : Int))
    (hyh : d.y + 16 ≤ ((rot90n grot buf).h : Int)) :
    get_buffer_window d (rot90n grot buf) = specWindow buf grot d := by
  have hsx : sliceClamp (rot90n grot buf).w d.x = d.x.toNat :=
    sliceClamp_of_le _ _ hx0 (by omega)
  have hex : sliceClamp (rot90n grot buf).w (d.x + 16) = d.x.toNat + 16 := by
    rw [sliceClamp_of_le _ _ (by omega) (by omega)]; omega
  have hsy : sliceClamp (rot90n grot buf).h d.y = d.y.toNat :=
    sliceClamp_of_le _ _ hy0 (by omega)
  have hey : sliceClamp (rot90n grot buf).h (d.y + 16) = d.y.toNat + 16 := by
    rw [sliceClamp_of_le _ _ (by omega) (by omega)]; omega
  have hslice : pySlice2 (rot90n grot buf) d.x d.y 16 16 =
      Grid.mk 16 16 (fun i j => (rot90n grot buf).pix (d.x.toNat + i) (d.y.toNat + j)) := by
    apply Grid.ext'
    · simp [pySlice2, hsx, hex]
    · simp [pySlice2, hsy, hey]
    · funext i j
      simp [pySlice2, hsx, hsy]
  rw [get_buffer_window, specWindow]
  show rot90n ( Display.rotation d + 1) (pySlice2 (rot90n grot buf) d.x d.y 16 16) = _
  rw [hslice]

theorem c3_witness :
    get_buffer_window ⟨true, 0, 0, 0⟩ (rot90n 0 (zeroGrid 16 16)) =
      specWindow (zeroGrid 16 16) 0 ⟨true, 0, 0, 0⟩ :=
  c3_window_is_rotate_slice_rotate (zeroGrid 16 16) 0 ⟨true, 0, 0, 0⟩
    (by decide) (by decide) (by decide) (by decide)

/-- C5 counterexample: setting rotation 360 and reading it back returns
360, which is a snapped multiple of 90 but is not normalised into
{0, 90, 180, 270}. -/
theorem c5_counterexample :
    get_rotation ( set_rotation 360) = 360 ∧
    get_rotation ( set_rotation 360) ≠ 0 ∧ get_rotation ( set_rotation 360) ≠ 90 ∧
    get_rotation ( set_rotation 360) ≠ 180 ∧ get_rotation ( set_rotation 360) ≠ 270 := by
  have h4 : set_rotation 360 = 4 := by
    rw [ set_rotation]
    have h360 : (360 : ℚ) / 90 = ((4 : Int) : ℚ) := by norm_num
    rw [h360, pyRound, Int.floor_intCast]
    norm_num
  rw [ get_rotation, h4]
  norm_num

/-- C5 (amended): the stored rotation is the input angle snapped to the
nearest multiple of 90 degrees (within 45), but the getter does not
normalise it into {0, 90, 180, 270}. -/
theorem c5_snapped_not_normalized (r : ℚ) :
    ∃ k : Int, get_rotation ( set_rotation r) = 90 * k ∧
      |r - 90 * (k : ℚ)| ≤ 45 := by
  refine ⟨pyRound (r / 90), by rw [ get_rotation, set_rotation, Int.mul_comm], ?_⟩
  have hclose := pyRound_close (r / 90)
  have hfactor : r - 90 * ((pyRound (r / 90) : Int) : ℚ) =
      90 * (r / 90 - ((pyRound (r / 90) : Int) : ℚ)) := by ring
  rw [hfactor, abs_mul, show |(90 : ℚ)| = 90 by norm_num]
  calc (90 : ℚ) * |r / 90 - ((pyRound (r / 90) : Int) : ℚ)|
      ≤ 90 * (1/2) := by
        exact mul_le_mul_of_nonneg_left hclose (by norm_num)
    _ = 45 := by norm_num

/-- C1 (amended): every payload byte of the non-addressed frame is the
corresponding channel of the globally rotated buffer, scaled by the
brightness, truncated toward zero and reduced modulo 256 into [0, 256) —
a wrapping conversion, not a saturating one. -/
theorem c1_byte_is_truncate_mod_256 (buf : Grid) (rot : Int) (brightness : ℚ)
    (i j c : Nat) (hw : buf.w = 16) (hh : buf.h = 16)
    (hi : i < 16) (hj : j < 16) (hc : c < 3) :
    ∃ payload, show_frames buf rot brightness false [] = .ok [SOF :: payload] ∧
      payload[3 * (16 * i + j) + c]? =
        some (toUint8 ((pixChannel c ((rot90n rot buf).pix i j) : ℚ) * brightness)) ∧
      0 ≤ toUint8 ((pixChannel c ((rot90n rot buf).pix i j) : ℚ) * brightness) ∧
      toUint8 ((pixChannel c ((rot90n rot buf).pix i j) : ℚ) * brightness) < 256 := by
  obtain ⟨hrw, hrh⟩ := rot90n_square rot buf hw hh
  refine ⟨scaledBytes (rot90n rot buf) brightness, ?_, ?_, ?_, ?_⟩
  · rw [show_frames, if_neg (by simp), single_frame]
    rw [if_pos (by rw [hrw, hrh])]
    rfl
  · have hidx : 3 * (16 * i + j) + c = 3 * (rot90n rot buf).h * i + (3 * j + c) := by
      rw [hrh]; ring
    rw [scaledBytes, List.getElem?_map, hidx,
      flattenGrid_getElem (rot90n rot buf) i j c (by rw [hrw]; exact hi)
        (by rw [hrh]; exact hj) hc]
    rfl
  · exact Int.emod_nonneg _ (by norm_num)
  · exact Int.emod_lt_of_pos _ (by norm_num)

theorem c1_witness :
    ∃ payload, show_frames grid300 0 1 false [] = .ok [SOF :: payload] ∧
      payload[3 * (16 * 0 + 0) + 0]? =
        some (toUint8 ((pixChannel 0 ((rot90n 0 grid300).pix 0 0) : ℚ) * 1)) ∧
      0 ≤ toUint8 ((pixChannel 0 ((rot90n 0 grid300).pix 0 0) : ℚ) * 1) ∧
      toUint8 ((pixChannel 0 ((rot90n 0 grid300).pix 0 0) : ℚ) * 1) < 256 :=
  c1_byte_is_truncate_mod_256 grid300 0 1 0 0 0 rfl rfl (by decide) (by decide) (by decide)

/-- C1 counterexample: with channel value 300 stored at pixel (0,0) and
brightness 1.0, the emitted byte is 44 = 300 mod 256, not the saturated
value 255 the claim requires. -/
theorem c1_counterexample :
    (show_frames grid300 0 1 false []).map (fun fs => (fs.headD [])[1]?)
      = .ok (some 44) ∧
    clampByte ((300 : ℚ) * 1) = 255 ∧ ((44 : Int) ≠ 255) := by
  have hcast : ((300 : ℚ)) = ((300 : Int) : ℚ) := by norm_num
  refine ⟨?_, ?_, by decide⟩
  · have h1 : show_frames grid300 0 1 false [] =
        .ok [SOF :: scaledBytes grid300 1] := by
      rw [show_frames, if_neg (by simp), single_frame,
        show rot90n 0 grid300 = grid300 from rfl, if_pos (by decide)]
      rfl
    rw [h1, Except.map]
    have h0 : (flattenGrid grid300)[0]? = some (pixChannel 0 (grid300.pix 0 0)) := by
      have := flattenGrid_getElem grid300 0 0 0 (by decide) (by decide) (by decide)
      simpa using this
    have hval : pixChannel 0 (grid300.pix 0 0) = 300 := by decide
    rw [hval] at h0
    simp only [List.headD_cons, List.getElem?_cons_succ]
    rw [scaledBytes, List.getElem?_map, h0, Option.map_some']
    have : toUint8 (((300 : Int) : ℚ) * 1) = 44 := by
      rw [mul_one, toUint8, truncQ, if_pos (by norm_num), Int.floor_intCast]
      decide
    rw [this]
  · rw [hcast, mul_one, clampByte, truncQ, if_pos (by norm_num), Int.floor_intCast]
    decide

end UnicornHatHD
